import Mathlib

/-!
# Verification of the svc-api atlas search pipeline

A shallow embedding, in Lean 4, of the parts of the `svc-api` place-name
service that the specification's claims are about:

* the text normalizer `simplify` (src/app/gazetteer.ts) and its helper\n  `makePlainASCII_UC` (src/unnamed/part_000);
* the location record `AtlasLocation`, its `isCloseMatch` test and its
  `displayName` rendering (src/app/common.ts, class `AtlasLocation`);
* the per-row rank computation of the local database search
  (src/app/atlas_database.ts, `doDataBaseSearch`);
* the search-log read/modify/write (`logSearchResults`,
  `hasSearchBeenDoneRecently` in src/app/atlas_database.ts);
* the pairwise deduplication step for equal GeoNames identifiers and the
  final sort/truncation (src/app/atlas.ts, `eliminateDuplicatesAndSort`
  and the route handler);
* the remote-source orchestration bookkeeping (src/app/atlas.ts,
  `remoteSourcesSearch` and `copyAndMergeLocations`);
* the Getty preliminary-search paging condition (`gettyPreliminarySearch`).

JavaScript strings are modelled as Lean `String` (or as `List Nat` of
character codes where character-level reasoning is needed), JavaScript
numbers holding integers as `Int`/`Nat`, and geographic coordinates as `ℚ`.
Null/undefined string fields that the code tests for are modelled as
`Option String` (for `zone`) or as the empty string (for fields the code
only ever tests for truthiness or equality).
-/

/-! ## Constants (src/app/atlas.ts, src/app/atlas_database.ts, src/app/common.ts) -/

def DEFAULT_MATCH_LIMIT : Int := 75

def MAX_MATCH_LIMIT : Int := 500

def ZIP_RANK : Int := 9

def MIN_EXTERNAL_SOURCE : Int := 100

def NO_RESULTS_YET : Int := -1

def MAX_MONTHS_BEFORE_REDOING_EXTENDED_SEARCH : Nat := 12

/-! ## Effective match limit (src/app/atlas.ts line 71)

`const limit = Math.min(toInt(req.query.limit, DEFAULT_MATCH_LIMIT), MAX_MATCH_LIMIT);`

`toInt(v, dflt)` yields the parsed integer of the query parameter, or the
default when the parameter is absent or unparseable; that outcome is the
`Option Int` argument here. -/

def effectiveLimit (requested : Option Int) : Int :=
  min (requested.getD DEFAULT_MATCH_LIMIT) MAX_MATCH_LIMIT

/-! ## Getty preliminary-search paging (src/app/atlas.ts line 1921)

The do/while condition of `gettyPreliminarySearch`:

`while (theresMore && page < 6 && matchCount < 50 && !(page > 1 && matchCount >= page * 12))`

`page` is the number of pages fetched so far (incremented at the top of the
loop body) and `matchCount` the number of matches accumulated so far. -/

def gettyKeepPaging (theresMore : Bool) (page matchCount : Nat) : Bool :=
  theresMore && decide (page < 6) && decide (matchCount < 50) &&
    !(decide (page > 1) && decide (matchCount ≥ page * 12))

/-- The paging condition as claimed: stop when the accumulated match count
falls *below* `12·page` (the claim's reading of the third stop condition). -/
def claimedKeepPaging (theresMore : Bool) (page matchCount : Nat) : Bool :=
  theresMore && decide (page < 6) && decide (matchCount < 50) &&
    !(decide (page > 1) && decide (matchCount < page * 12))

/-! ## Per-row rank in the local database search
(src/app/atlas_database.ts lines 205-225)

For each row accepted by `doDataBaseSearch`, with `parsed.postalCode` truthy
the code runs

```
rank = ZIP_RANK;
if (results.length > 1) {
  rank += parsed.targetCity && closeMatchForCity(parsed.targetCity, city) ? 2 : 0;
  rank += parsed.targetCity && closeMatchForState(parsed.targetCity, state, country) ? 1 : 0;
  rank += parsed.targetState && closeMatchForState(parsed.targetState, state, country) ? 1 : 0;
  rank += parsed.targetState && closeMatchForCity(parsed.targetState, city) ? 1 : 0;
}
```

and otherwise `rank += rankAdjust` clamped into `[0, ZIP_RANK - 1]`.

The boolean arguments record, for the row at hand: whether `targetCity` /
`targetState` are nonempty and the outcomes of the four close-match tests
(which depend on gazetteer tables loaded from data files, so they enter the
model as inputs). `resultCount` is `results.length` for the query that
produced the row, `dbRank` the row's stored rank, `rankAdjust` the
per-stage adjustment (+1 exact, 0 alt/starts-with, -1 sounds-like). -/

def rowRank (postal : Bool) (resultCount : Nat) (targetCityNonEmpty targetStateNonEmpty : Bool)
    (cityMatchesCity cityMatchesState stateMatchesState stateMatchesCity : Bool)
    (dbRank rankAdjust : Int) : Int :=
  if postal then
    ZIP_RANK +
      (if resultCount > 1 then
        (if targetCityNonEmpty && cityMatchesCity then 2 else 0) +
        (if targetCityNonEmpty && cityMatchesState then 1 else 0) +
        (if targetStateNonEmpty && stateMatchesState then 1 else 0) +
        (if targetStateNonEmpty && stateMatchesCity then 1 else 0)
      else 0)
  else
    let rank := dbRank + rankAdjust
    if rank ≥ ZIP_RANK then ZIP_RANK - 1
    else if rank < 0 then 0
    else rank

/-! ## Search log (src/app/atlas_database.ts lines 53-100)

Table `atlas_searches2` keyed by `search_string`; since both functions touch
only the row for the search string at hand, the state is that single row:
`none` when no row exists, otherwise its `extended`, `hits` and `matches`
columns plus `ageMonths`, the value of
`TIMESTAMPDIFF(MONTH, time_stamp, NOW())` (non-negative for a stored row).
-/

structure SearchRow where
  extended : Bool
  hits : Nat
  matchesCol : Int
  ageMonths : Nat
deriving Repr, DecidableEq

/-- `logSearchResults(connection, searchStr, extended, matchCount, dbUpdate)`.
Returns the `found` flag and the row state after the call.

The SELECT populates the locals (`wasExtended`, `dbHits`, `matches`,
`ageMonths`, defaulting to `false`/`0`/`0`/`-1` when no row exists), and
`found` is set when `ageMonths < MAX_MONTHS_BEFORE_REDOING_EXTENDED_SEARCH`
and (`wasExtended || !extended`). When `matchCount >= 0 && dbUpdate`, the
code INSERTs a fresh row (`hits = 1`, age 0) if no row existed
(`!found && ageMonths < 0`), and otherwise UPDATEs only `hits` and
`extended` (the UPDATE statement does not touch `time_stamp` or `matches`,
so `ageMonths` and `matches` are carried over). -/
def logSearchResults (row : Option SearchRow) (extended : Bool) (matchCount : Int)
    (dbUpdate : Bool) : Bool × Option SearchRow :=
  match row with
  | none =>
      let found := false
      if 0 ≤ matchCount ∧ dbUpdate = true then
        let matchCount := if matchCount < 0 then 0 else matchCount
        (found, some { extended := extended, hits := 1, matchesCol := matchCount, ageMonths := 0 })
      else
        (found, none)
  | some r =>
      let found := decide (r.ageMonths < MAX_MONTHS_BEFORE_REDOING_EXTENDED_SEARCH) &&
        (r.extended || !extended)
      if 0 ≤ matchCount ∧ dbUpdate = true then
        let extended := if r.extended then true else extended
        (found, some { r with extended := extended, hits := r.hits + 1 })
      else
        (found, some r)

/-- `hasSearchBeenDoneRecently(connection, searchStr, extended)` =
`logSearchResults(connection, searchStr, extended, NO_RESULTS_YET, false)`
(src/app/atlas_database.ts lines 53-55). -/
def hasSearchBeenDoneRecently (row : Option SearchRow) (extended : Bool) :
    Bool × Option SearchRow :=
  logSearchResults row extended NO_RESULTS_YET false

/-- Whether the stored row (if any) is less than 12 months old. -/
def rowFreshB (row : Option SearchRow) : Bool :=
  match row with
  | none => false
  | some r => decide (r.ageMonths < MAX_MONTHS_BEFORE_REDOING_EXTENDED_SEARCH)

/-- The `extended` flag of the stored row (`false` when no row exists). -/
def storedExtended (row : Option SearchRow) : Bool :=
  match row with
  | none => false
  | some r => r.extended

/-- **Claim C5 as stated**, at one state: after `logSearchResults(s, ext, n)`
with database updates enabled, `hasSearchBeenDoneRecently(s, ext')` returns
true iff `ext' ≤ ext` and the stored row is less than 12 months old. -/
def searchLogClaim (row : Option SearchRow) (ext extLater : Bool) (n : Int) : Prop :=
  (hasSearchBeenDoneRecently (logSearchResults row ext n true).2 extLater).1 = true ↔
    ((extLater = true → ext = true) ∧
      rowFreshB (logSearchResults row ext n true).2 = true)

/-! ## Final truncation in the route handler (src/app/atlas.ts lines 153-160)

```
const uniqueMatches = eliminateDuplicatesAndSort(mergedMatches, limit + 1);
if (uniqueMatches.length > limit) {
  uniqueMatches.length = limit;
  result.limitReached = true;
}
result.matches = uniqueMatches;
```

`limitReached` starts out unset (falsy). In JavaScript, assigning a negative
number to `Array.length` throws a `RangeError`, aborting the request before
a result is produced; that abort is `none` here. The element type is left
abstract since the step only truncates the list. -/

def applyMatchLimit {α : Type} (uniqueMatches : List α) (limit : Int) :
    Option (List α × Bool) :=
  if (uniqueMatches.length : Int) > limit then
    if limit < 0 then none
    else some (uniqueMatches.take limit.toNat, true)
  else some (uniqueMatches, false)

/-! ## The text normalizer `simplify` (src/app/gazetteer.ts lines 238-292)

Strings are modelled as lists of character codes (`List Nat`), so that the
character-level loops of the source can be transcribed directly.

`simplify` is called with its default arguments (`asVariant = false`,
`processAbbreviations = true`) everywhere the claims reach, so only that
path is embedded. -/

/-- Whether a code is a JavaScript whitespace character removed by
`String.prototype.trim` (ASCII part: TAB/LF/VT/FF/CR and space). -/
def isJsSpace (c : Nat) : Bool := c = 32 || (9 ≤ c && c ≤ 13)

/-- `String.prototype.toUpperCase` on the ASCII fragment: every character
`makePlainASCII` emits is printable ASCII (each branch of its character
loop pushes ASCII), so this fold is the exact effect of the
`.toUpperCase()` applied to its result in `makePlainASCII_UC`. -/
def asciiUpperCode (c : Nat) : Nat :=
  if 97 ≤ c ∧ c ≤ 122 then c - 32 else c

/-- The `diacriticals` table of src/unnamed/part_000 (lines 152-163), as
UTF-16 code units: the accented Latin-1 letters followed by soft hyphen,
accents, dots, dashes, quotes, primes, angle quotes and fraction slash. -/
def diacriticals : List Nat :=
  [192, 193, 194, 195, 196, 197, 199, 200, 201, 202, 203, 204,
   205, 206, 207, 209, 210, 211, 212, 213, 214, 216, 217, 218,
   219, 220, 221, 224, 225, 226, 227, 228, 229, 231, 232, 233,
   234, 235, 236, 237, 238, 239, 241, 242, 243, 244, 245, 246,
   248, 249, 250, 251, 252, 253, 255, 173, 180, 183, 8226, 8208,
   8209, 8210, 8211, 8216, 8217, 8218, 8219, 8220, 8221, 8223, 8220, 8228,
   8231, 8242, 8243, 8249, 8250, 8260]

/-- The `plainChars` table of src/unnamed/part_000 (lines 164-175), the
replacement character for each entry of `diacriticals` (codes 39, 34, 42,
45, 46, 47, 60, 62 are apostrophe, double quote, asterisk, hyphen, period,
slash and angle brackets). -/
def plainChars : List Nat :=
  [65, 65, 65, 65, 65, 65, 67, 69, 69, 69, 69, 73,
   73, 73, 73, 78, 79, 79, 79, 79, 79, 79, 85, 85,
   85, 85, 89, 97, 97, 97, 97, 97, 97, 99, 101, 101,
   101, 101, 105, 105, 105, 105, 110, 111, 111, 111, 111, 111,
   111, 117, 117, 117, 117, 121, 121, 45, 39, 42, 42, 45,
   45, 45, 45, 39, 39, 39, 39, 34, 34, 34, 34, 46,
   45, 39, 34, 60, 62, 47]

/-- The `latinExtendedASubstitutions` table of src/unnamed/part_000
(lines 176-177): one substitution character for each code point in
U+0100..U+017F. -/
def latinExtendedASubstitutions : List Nat :=
  ("AaAaAaCcCcCcCcDdDdEeEeEeEeEeGgGgGgGgHhHhIiIiIiIiIi--JjKkkLlLlLlL" ++
   "lLlNnNnNnn--OoOoOo--RrRrRrSsSsSsSsTtTtTtUuUuUuUuUuUuWwYyYZzZzZzs").toList.map Char.toNat

/-- `table.charAt(i)` pushed onto the output: the character at `i`, or
nothing when out of range (JavaScript `charAt` yields the empty string
there). -/
def charAtList (l : List Nat) (i : Nat) : List Nat :=
  match l.get? i with
  | some c => [c]
  | none => []

/-- One iteration of the character loop of `makePlainASCII`
(src/unnamed/part_000 lines 261-346) with `forFileName = false`, the only
call shape reachable from `simplify` via `makePlainASCII_UC`. The first
component is the multi-character replacement `ch2` when one is assigned
(the empty list for combining diacritical marks); the second is the single
character `ch` pushed when `ch2` stays undefined — possibly rewritten by
the Latin-Extended-A or diacriticals tables, or to `_` (95). The
duplicated em-dash branch of the source is kept (it is dead, being
identical to the branch before it). -/
def makePlainASCIIStep (c : Nat) : Option (List Nat) × List Nat :=
  if 32 ≤ c ∧ c ≤ 126 then (none, [c])
  else if c = 0xC6 then (some [65, 101], [c])      -- Latin capital letter AE -> Ae
  else if c = 0xD0 then (some [68, 104], [c])      -- Latin capital letter Eth -> Dh
  else if c = 0xDE then (some [84, 104], [c])      -- Latin capital letter Thorn -> Th
  else if c = 0xDF then (some [115, 115], [c])     -- Latin small letter sharp s -> ss
  else if c = 0xE6 then (some [97, 101], [c])      -- Latin small letter ae -> ae
  else if c = 0xF0 then (some [100, 104], [c])     -- Latin small letter eth -> dh
  else if c = 0xFE then (some [116, 104], [c])     -- Latin small letter thorn -> th
  else if c = 0xA9 then (some [40, 99, 41], [c])   -- Copyright -> (c)
  else if c = 0xAB then (some [60, 60], [c])       -- Left double angle quotation -> <<
  else if c = 0xAE then (some [40, 82, 41], [c])   -- Registered sign -> (R)
  else if c = 0xB1 then (some [43, 47, 45], [c])   -- Plus-minus sign -> +/-
  else if c = 0xBB then (some [62, 62], [c])       -- Right double angle quotation -> >>
  else if c = 0x132 then (some [73, 106], [c])     -- Latin capital ligature IJ -> Ij
  else if c = 0x133 then (some [105, 106], [c])    -- Latin small ligature ij -> ij
  else if c = 0x14A then (some [78, 103], [c])     -- Latin capital letter Eng -> Ng
  else if c = 0x14B then (some [110, 103], [c])    -- Latin small letter eng -> ng
  else if c = 0x152 then (some [79, 101], [c])     -- Latin capital ligature OE -> Oe
  else if c = 0x153 then (some [111, 101], [c])    -- Latin small ligature oe -> oe
  else if 0x100 ≤ c ∧ c ≤ 0x17F then               -- Various Latin Extended A
    (none, charAtList latinExtendedASubstitutions (c - 0x100))
  else if c = 0x2014 ∨ c = 0x2015 then (some [45, 45], [c])  -- em dash, horizontal bar
  else if c = 0x2014 ∨ c = 0x2015 then (some [45, 45], [c])  -- duplicated branch, as in the source
  else if c = 0x2026 then (some [46, 46, 46], [c]) -- ellipsis -> ...
  else
    match diacriticals.findIdx? (fun x => x = c) with  -- diacriticals.indexOf(ch)
    | some pos => (none, charAtList plainChars pos)
    | none =>
      if 0x300 ≤ c ∧ c ≤ 0x36F then (some [], [c]) -- omit combining diacritical marks
      else (none, [95])                            -- otherwise: underscore

/-- What the loop body pushes for one character: `ch` itself when `ch2`
stays undefined, otherwise `ch2`, uppercased when the whole input was
already uppercase (`allUpper`). -/
def makePlainASCIIPush (allUpper : Bool) (c : Nat) : List Nat :=
  match makePlainASCIIStep c with
  | (none, chOut) => chOut
  | (some ch2, _) => if allUpper then ch2.map asciiUpperCode else ch2

/-- The character loop of `makePlainASCII` over the whole string. -/
def makePlainASCIIChars (allUpper : Bool) : List Nat → List Nat
  | [] => []
  | c :: cs => makePlainASCIIPush allUpper c ++ makePlainASCIIChars allUpper cs

/-- `makePlainASCII(s)` (src/unnamed/part_000 lines 238-349,
`forFileName = false`): falsy input is returned as is; when no character
needs work (all code units in 32..126) the string is returned unchanged;
otherwise the character loop runs. The source computes
`allUpper = (s === s.toUpperCase())` with the library's full-Unicode
`toUpperCase`; that predicate enters the model as the `allUpper` argument
(the uppercase fold of `makePlainASCII_UC` makes its value irrelevant —
see `makePlainASCII_UC_allUpper_irrelevant`). -/
def makePlainASCII (s : List Nat) (allUpper : Bool) : List Nat :=
  if s = [] then s
  else if s.all (fun c => 32 ≤ c && c ≤ 126) then s
  else makePlainASCIIChars allUpper s

/-- `makePlainASCII_UC(s)` (src/unnamed/part_000 lines 358-363):
`makePlainASCII(s).toUpperCase()` for truthy input, the input itself
otherwise. `makePlainASCII` only emits ASCII, so `toUpperCase` here is the
ASCII fold `asciiUpperCode`; the internal `allUpper` flag is fixed at
`true`, which is sound because the result is the same for either value
(`makePlainASCII_UC_allUpper_irrelevant`). -/
def makePlainASCII_UC (s : List Nat) : List Nat :=
  if s = [] then s else (makePlainASCII s true).map asciiUpperCode

/-- `s.trim()` on the ASCII fragment: strip leading and trailing
whitespace. -/
def trimCodes (s : List Nat) : List Nat :=
  ((s.dropWhile isJsSpace).reverse.dropWhile isJsSpace).reverse

/-- ```
const pos = s.indexOf('(');
if (pos >= 0) s = s.substring(0, pos).trim();
```
`40` is `(`. -/
def stripParenTail (s : List Nat) : List Nat :=
  if 40 ∈ s then trimCodes (s.takeWhile (fun c => c ≠ 40)) else s

/-- The character loop of `simplify`: `-` (45) and `.` (46) become spaces
(32), spaces and `/[0-9A-Z]/i` characters (digits 48-57, A-Z 65-90,
a-z 97-122) are kept, everything else is dropped. -/
def simplifyScan : List Nat → List Nat
  | [] => []
  | c :: cs =>
    if c = 45 ∨ c = 46 then 32 :: simplifyScan cs
    else if c = 32 ∨ (48 ≤ c ∧ c ≤ 57) ∨ (65 ≤ c ∧ c ≤ 90) ∨ (97 ≤ c ∧ c ≤ 122) then
      c :: simplifyScan cs
    else simplifyScan cs

/-- `s.startsWith(p)` on code lists. -/
def beginsWithCodes : List Nat → List Nat → Bool
  | _, [] => true
  | [], _ :: _ => false
  | c :: cs, p :: ps => c = p && beginsWithCodes cs ps

/-- First abbreviation chain of `simplify` (default-argument path):
`FORT ` → `FT` else `MOUNT ` → `MT` else `POINT ` → `PT`.
Code lists spell the words: e.g. `[70,79,82,84,32]` is `FORT `. -/
def compressFMP (s : List Nat) : List Nat :=
  if beginsWithCodes s [70, 79, 82, 84, 32] then [70, 84] ++ s.drop 5
  else if beginsWithCodes s [77, 79, 85, 78, 84, 32] then [77, 84] ++ s.drop 6
  else if beginsWithCodes s [80, 79, 73, 78, 84, 32] then [80, 84] ++ s.drop 6
  else s

/-- Second abbreviation chain of `simplify`, applied to the outcome of the
first: `SAINT ` → `ST` else `SAINTE ` → `STE` (`[83,65,73,78,84,32]` is
`SAINT `). -/
def compressSaint (s : List Nat) : List Nat :=
  if beginsWithCodes s [83, 65, 73, 78, 84, 32] then [83, 84] ++ s.drop 6
  else if beginsWithCodes s [83, 65, 73, 78, 84, 69, 32] then [83, 84, 69] ++ s.drop 7
  else s

/-- The abbreviation compression of `simplify`: the `FORT/MOUNT/POINT`
chain followed by the `SAINT/SAINTE` chain. -/
def compressAbbreviations (s : List Nat) : List Nat :=
  compressSaint (compressFMP s)

/-- The final loop of `simplify`: keep non-space characters while fewer than
40 have been kept. -/
def squeezeTo40 (s : List Nat) : List Nat :=
  (s.filter (fun c => c ≠ 32)).take 40

/-- `simplify(s)` with default arguments (src/app/gazetteer.ts lines
238-292): empty (falsy) input is returned as is; otherwise strip a
parenthetical tail, fold to plain uppercase ASCII, run the character scan,
compress leading abbreviations, then delete spaces and truncate to 40. -/
def simplify (s : List Nat) : List Nat :=
  if s = [] then s
  else squeezeTo40 (compressAbbreviations (simplifyScan (makePlainASCII_UC (stripParenTail s))))

/-- A code of the simplified-key alphabet: digits `0-9` or uppercase
`A-Z`. -/
def isSimpleKeyCode (c : Nat) : Bool := (48 ≤ c && c ≤ 57) || (65 ≤ c && c ≤ 90)

/-! ## Locations (src/app/common.ts, class `AtlasLocation`)

String fields that the code only tests for truthiness or (case-insensitive)
equality are `String`, with `""` for null/undefined; `zone` is
`Option String` because `eliminateDuplicatesAndSort` distinguishes
null/undefined (`zone2 == null`) from the empty string (`!zone1`).
Coordinates and elevation are `ℚ`. -/

structure AtlasLocation where
  city : String := ""
  variant : String := ""
  county : String := ""
  showCounty : Bool := false
  state : String := ""
  showState : Bool := false
  country : String := ""
  longCountry : String := ""
  flagCode : String := ""
  latitude : ℚ := 0
  longitude : ℚ := 0
  elevation : ℚ := 0
  zone : Option String := none
  zip : String := ""
  rank : Int := 0
  placeType : String := ""
  source : Int := 0
  matchedByAlternateName : Bool := false
  matchedBySound : Bool := false
  geonameID : Int := 0
  useAsUpdate : Bool := false
deriving Repr, DecidableEq

/-- ASCII uppercase fold of one character. -/
def upAsciiChar (c : Char) : Char :=
  if 'a' ≤ c ∧ c ≤ 'z' then Char.ofNat (c.toNat - 32) else c

/-- ASCII uppercase fold of a string, as a character list. -/
def upAscii (s : String) : List Char := s.toList.map upAsciiChar

/-- `eqci(s1, s2)` (src/app/common.ts line 44): equality up to case (the
source uses a base-sensitivity locale compare, i.e. case- and
diacritic-insensitive; the ASCII case fold covers the fragment the claims
touch). Two absent values are equal; an absent value is modelled as `""`. -/
def eqci (s1 s2 : String) : Bool := upAscii s1 = upAscii s2

/-- `AtlasLocation.isCloseMatch` (src/app/common.ts lines 246-258): eqci on
city/variant/county/state/country, coordinates within 1e-4, and equal
elevation, zone, zip and placeType. -/
def isCloseMatch (a b : AtlasLocation) : Bool :=
  eqci a.city b.city &&
  eqci a.variant b.variant &&
  eqci a.county b.county &&
  eqci a.state b.state &&
  eqci a.country b.country &&
  decide (|a.latitude - b.latitude| < (1 : ℚ) / 10000) &&
  decide (|a.longitude - b.longitude| < (1 : ℚ) / 10000) &&
  decide (a.elevation = b.elevation) &&
  decide (a.zone = b.zone) &&
  decide (a.zip = b.zip) &&
  decide (a.placeType = b.placeType)

/-- `s.startsWith(p)` on character lists. -/
def beginsWithChars : List Char → List Char → Bool
  | _, [] => true
  | [], _ :: _ => false
  | c :: cs, p :: ps => c = p && beginsWithChars cs ps

/-- Substring containment on character lists. -/
def containsChars : List Char → List Char → Bool
  | [], sub => sub.isEmpty
  | c :: cs, sub => beginsWithChars (c :: cs) sub || containsChars cs sub

/-- Case-insensitive substring test (an unanchored case-insensitive regex
`test`). -/
def containsCI (s pat : String) : Bool := containsChars (upAscii s) (upAscii pat)

/-- Case-insensitive suffix test (a case-insensitive regex `...$` test). -/
def endsWithCI (s pat : String) : Bool :=
  beginsWithChars (upAscii s).reverse (upAscii pat).reverse

/-- ` (${s})` (src/app/common.ts line 106). -/
def addParenthetical (s : String) : String := " (" ++ s ++ ")"

/-- The Alaska census-area names (src/app/common.ts, `CENSUS_AREAS`). -/
def censusAreaNames : List String :=
  ["Aleutians West", "Bethel", "Dillingham", "Nome",
   "Prince of Wales-Outer Ketchikan", "Skagway-Hoonah-Angoon",
   "Southeast Fairbanks", "Valdez-Cordova", "Wade Hampton",
   "Wrangell-Petersburg", "Yukon-Koyukuk"]

/-- `adjustUSCountyName` (src/app/common.ts lines 115-134): append
`Division`/`Census Area`/`Borough`/`Parish`/`County` per state-specific
rules unless such a suffix is already present. -/
def adjustUSCountyName (county state : String) : String :=
  if endsWithCI county " Division" || endsWithCI county " Census Area" ||
     endsWithCI county " Borough" || endsWithCI county " Parish" ||
     endsWithCI county " County" then county
  else if state = "AK" then
    if containsCI county "Anchorage" || containsCI county "Juneau" then
      county ++ " Division"
    else if censusAreaNames.any (fun p => containsCI county p) then
      county ++ " Census Area"
    else county ++ " Borough"
  else if state = "LA" then county ++ " Parish"
  else county ++ " County"

/-- The place-type suffix chain of the `displayName` getter
(src/app/common.ts lines 211-239); `city` is the (possibly
county-adjusted) display city used for the `A.ADM2` test. -/
def placeTypeTag (placeType country city : String) : String :=
  if placeType = "T.CAPE" then " (cape)"
  else if placeType = "H.LK" then " (lake)"
  else if placeType = "L.PRK" then " (park)"
  else if placeType = "T.PK" then " (peak)"
  else if placeType = "L.MILB" then " (military base)"
  else if placeType = "A.ADM2" then
    (if containsCI city " Borough" || containsCI city " Census Area" ||
        containsCI city " County" || containsCI city " Division" ||
        containsCI city " Parish" then " (county)" else "")
  else if placeType = "T.ISL" then " (island)"
  else if placeType = "S.ASTR" ∨ placeType = "T.POLE" then " (geographic point)"
  else if placeType = "T.MT" then " (mountain)"
  else if placeType = "A.ADM0" then " (nation)"
  else if placeType = "S.OBS" then " (observatory)"
  else if placeType = "A.ADM1" ∧ country = "CAN" then " (province)"
  else if placeType = "A.ADM1" ∧ country = "USA" then " (state)"
  else ""

/-- The `displayName` getter (src/app/common.ts lines 173-242). Note the
JavaScript operator precedence in the branch test:
`country === 'USA' || country === 'CAN' && placeType !== 'A.ADM0'`. -/
def displayName (a : AtlasLocation) : String :=
  if a.country = "USA" ∨ (a.country = "CAN" ∧ a.placeType ≠ "A.ADM0") then
    let city := if a.country = "USA" ∧ a.placeType = "A.ADM2" then
        adjustUSCountyName a.city a.state else a.city
    let county := if a.country = "USA" ∧ a.placeType ≠ "A.ADM2" then
        adjustUSCountyName a.county a.state else a.county
    let displayState := if a.placeType ≠ "A.ADM1" then a.state else a.country
    let cityQualifier := if county ≠ "" ∧ a.showCounty then addParenthetical county else ""
    let stateQualifier :=
      (if a.state ≠ "" ∧ a.showState then addParenthetical a.state else "") ++
        placeTypeTag a.placeType a.country city
    city ++ cityQualifier ++
      (if displayState ≠ "" then ", " ++ displayState else "") ++ stateQualifier
  else
    let displayState := a.country
    let gbrState := a.country = "GBR" ∧ a.state ≠ ""
    let baseQualifier :=
      if gbrState then addParenthetical a.state
      else if a.longCountry ≠ "" ∧ a.placeType ≠ "A.ADM0" then
        addParenthetical a.longCountry
      else ""
    let showState := if gbrState then false else a.showState
    let cityQualifier := if a.county ≠ "" ∧ a.showCounty then addParenthetical a.county else ""
    let stateQualifier :=
      baseQualifier ++
        (if a.state ≠ "" ∧ showState then addParenthetical a.state else "") ++
        placeTypeTag a.placeType a.country a.city
    a.city ++ cityQualifier ++
      (if displayState ≠ "" then ", " ++ displayState else "") ++ stateQualifier

/-- The match comparator of `SearchResult.toPlainText`
(src/unnamed/part_013 lines 49-59): descending rank, then ascending
display name. -/
def matchComparator (a b : AtlasLocation) : Int :=
  if a.rank < b.rank then 1
  else if a.rank > b.rank then -1
  else if displayName a < displayName b then -1
  else if displayName a > displayName b then 1
  else 0

/-- Modelled from the spec: `AtlasLocation.compareTo` (the sort order used
by `eliminateDuplicatesAndSort`; the file atlas-location.ts is not under
src/). Per the spec (section 3, SearchResult), matches are "sorted
descending by rank then ascending by display name". -/
def compareToModel (a b : AtlasLocation) : Int :=
  if b.rank < a.rank then -1
  else if a.rank < b.rank then 1
  else if displayName a < displayName b then -1
  else if displayName b < displayName a then 1
  else 0

/-- The sort order induced by `matchComparator`: `a` may precede `b`. -/
def rankNameLE (a b : AtlasLocation) : Prop := matchComparator a b ≤ 0

instance : DecidableRel rankNameLE :=
  fun a b => (inferInstance : Decidable (matchComparator a b ≤ 0))

/-- `matches.sort((a, b) => ...)` with the above comparator, modelled as an
insertion sort (JavaScript `Array.prototype.sort` guarantees an output
ordered by the comparator). -/
def sortMatches (l : List AtlasLocation) : List AtlasLocation :=
  List.insertionSort rankNameLE l

/-! ## The equal-geonameID deduplication step
(src/app/atlas.ts lines 206-296, `eliminateDuplicatesAndSort`)

For a pair of locations in the same key bucket, the inner loop first fixes
up the local zone copies (`zone1`/`zone2`, lines 224-252 — note the
asymmetry: a falsy `zone1` becomes `"?"`, but only a null/undefined
`zone2` does), copies a confident time zone over an ambiguous one when the
two are within 10 km (lines 270-275), and then, when both have the same
nonzero `geonameID`, eliminates one of the pair (lines 277-296).

`closeDistance` is the outcome of
`roughDistanceBetweenLocationsInKm(...) < 10` — a floating-point/trig
computation that enters the model as an input. The result is `none` when
the equal-geonameID branch does not apply (the later branches of the loop
are outside this claim), and otherwise
`some (firstSurvives, location1', location2')` with both final records.
The two zone-copy assignments form an if/else-if chain in the source, but
their guards are mutually exclusive, so they are modelled as two
independent conditional updates. -/

/-- `s.endsWith('?')`. -/
def endsInQuestion (s : String) : Bool := s.toList.getLast? = some '?'

def geonamePairStep (closeDistance : Bool) (loc1 loc2 : AtlasLocation) :
    Option (Bool × AtlasLocation × AtlasLocation) :=
  let zone1 := match loc1.zone with
    | none => "?"
    | some z => if z = "" then "?" else z
  let zone2 := match loc2.zone with
    | none => "?"
    | some z => z
  let l1 := if closeDistance = true ∧ endsInQuestion zone1 = true ∧ endsInQuestion zone2 = false
    then { loc1 with zone := some zone2 } else loc1
  let l2 := if closeDistance = true ∧ endsInQuestion zone2 = true ∧ endsInQuestion zone1 = false
    then { loc2 with zone := some zone1 } else loc2
  if loc1.geonameID ≠ 0 ∧ loc1.geonameID = loc2.geonameID then
    if loc1.source > loc2.source then
      let survivor0 := { l1 with
        rank := max loc1.rank loc2.rank,
        zip := if loc1.zip ≠ "" then loc1.zip else loc2.zip,
        source := loc2.source }
      some (true, { survivor0 with useAsUpdate := !(isCloseMatch survivor0 l2) }, l2)
    else
      let survivor0 := { l2 with
        rank := max loc1.rank loc2.rank,
        source := loc1.source }
      let eliminated := { l1 with
        zip := if loc2.zip ≠ "" then loc2.zip else loc1.zip }
      let upd := decide (loc2.source > loc1.source) && !(isCloseMatch survivor0 eliminated)
      some (false, eliminated, { survivor0 with useAsUpdate := upd })
  else none

/-- **Claim C1 as stated**, at one pair: exactly one survives, the survivor
is the location with the lower `source`, its rank becomes the max of the
two, its zip a non-empty zip carried from either side, and `useAsUpdate`
holds iff the survivor is not a close match to the eliminated location. -/
def claimC1Stated (closeDistance : Bool) (loc1 loc2 : AtlasLocation) : Prop :=
  ∀ firstSurvives loc1After loc2After,
    geonamePairStep closeDistance loc1 loc2 = some (firstSurvives, loc1After, loc2After) →
      (loc1.source < loc2.source → firstSurvives = true) ∧
      (loc2.source < loc1.source → firstSurvives = false) ∧
      (if firstSurvives then loc1After else loc2After).rank = max loc1.rank loc2.rank ∧
      ((loc1.zip ≠ "" ∨ loc2.zip ≠ "") →
        (if firstSurvives then loc1After else loc2After).zip ≠ "") ∧
      ((if firstSurvives then loc1After else loc2After).useAsUpdate = true ↔
        isCloseMatch (if firstSurvives then loc1After else loc2After)
          (if firstSurvives then loc2After else loc1After) = false)

/-! ## Remote-source orchestration (src/app/atlas.ts lines 393-442 and
137-160)

Each adapter promise settles with either a location map or an error
(timeouts reject with a `TimeoutError` like any other failure); the settled
outcomes enter the model as `Except` values. Location maps are association
lists from keys to locations. The structure field `matchTotal` is the
source's `matches` counter (a Lean keyword). -/

structure RemoteSearchResults where
  geoNamesMatches : Option (List (String × AtlasLocation)) := none
  geoNamesError : Option String := none
  gettyMatches : Option (List (String × AtlasLocation)) := none
  gettyError : Option String := none
  noErrors : Bool := true
  matchTotal : Nat := 0
deriving Repr, DecidableEq

/-- `remoteSourcesSearch(parsed, doGeonames, doGetty, noTrace)`: launch
GeoNames when `doGeonames`, Getty when `doGetty` and there is no postal
code; inspect each launched adapter's settled outcome independently,
recording either its error message (clearing `noErrors`) or its location
map (adding its size to the match total). -/
def remoteSourcesSearch (doGeonames doGetty : Bool) (postalCode : String)
    (geoNamesOutcome gettyOutcome : Except String (List (String × AtlasLocation))) :
    RemoteSearchResults :=
  let r0 : RemoteSearchResults := {}
  let r1 :=
    if doGeonames then
      match geoNamesOutcome with
      | .error e => { r0 with geoNamesError := some e, noErrors := false }
      | .ok m => { r0 with geoNamesMatches := some m, matchTotal := r0.matchTotal + m.length }
    else r0
  if doGetty ∧ postalCode = "" then
    match gettyOutcome with
    | .error e => { r1 with gettyError := some e, noErrors := false }
    | .ok m => { r1 with gettyMatches := some m, matchTotal := r1.matchTotal + m.length }
  else r1

/-- Strip a trailing `(n)` disambiguation suffix from a bucket key:
`key.replace(/\(\d+\)$/, '')` (src/app/atlas.ts line 189). -/
def stripKeyIndexTail (k : String) : String :=
  match k.toList.reverse with
  | ')' :: rest =>
      match rest.dropWhile (fun c => '0' ≤ c ∧ c ≤ '9') with
      | '(' :: tail =>
          if rest.takeWhile (fun c => '0' ≤ c ∧ c ≤ '9') = [] then k
          else String.mk tail.reverse
      | _ => k
  | _ => k

/-- Append a location to its key's bucket, creating the bucket at the end
when absent. -/
def addToBucket : List (String × List AtlasLocation) → String → AtlasLocation →
    List (String × List AtlasLocation)
  | [], k, loc => [(k, [loc])]
  | (k0, locs) :: rest, k, loc =>
      if k0 = k then (k0, locs ++ [loc]) :: rest
      else (k0, locs) :: addToBucket rest k loc

/-- `copyAndMergeLocations(destination, source)` (src/app/atlas.ts lines
184-200): push every location of the source map onto the bucket of its
key with the `(n)` suffix stripped. -/
def copyAndMergeLocations (dest : List (String × List AtlasLocation))
    (src : List (String × AtlasLocation)) : List (String × List AtlasLocation) :=
  src.foldl (fun d kv => addToBucket d (stripKeyIndexTail kv.1) kv.2) dest

/-- The merge phase of the route handler (src/app/atlas.ts lines 137-151):
fold the local matches (when present) and then each present remote map
into the bucket map. -/
def mergeAllMatches (dbMatches : Option (List (String × AtlasLocation)))
    (remote : Option RemoteSearchResults) : List (String × List AtlasLocation) :=
  let d0 : List (String × List AtlasLocation) := []
  let d1 := match dbMatches with
    | some m => copyAndMergeLocations d0 m
    | none => d0
  match remote with
  | some rr =>
      let d2 := match rr.geoNamesMatches with
        | some m => copyAndMergeLocations d1 m
        | none => d1
      match rr.gettyMatches with
      | some m => copyAndMergeLocations d2 m
      | none => d2
  | none => d1

/-- A location appears in some bucket of the merged map. -/
def inBuckets (d : List (String × List AtlasLocation)) (loc : AtlasLocation) : Prop :=
  ∃ k locs, (k, locs) ∈ d ∧ loc ∈ locs

/-! ### Concrete locations used in counterexamples and witnesses -/

/-- A local (`source = 4`) and a newer remote (`source = 103`) record for the
same GeoNames id 5085; the counties differ (so the two are not a close
match) and the pair counts as distant (`closeDistance = false`, so no zone
copying); only the local one carries a zip. -/
def dupLocalLoc : AtlasLocation :=
  { city := "NASHUA", county := "HILLSBOROUGH", state := "NH", country := "USA",
    latitude := 42, longitude := -71, zone := some "America/New_York",
    zip := "03060", rank := 3, placeType := "P.PPL", source := 4,
    geonameID := 5085 }

/-- See `dupLocalLoc`. -/
def dupRemoteLoc : AtlasLocation :=
  { city := "NASHUA", state := "NH", country := "USA", latitude := 43,
    longitude := -71, zone := some "America/New_York", zip := "",
    rank := 2, placeType := "P.PPL", source := 103, geonameID := 5085 }

/-- A newer remote record (source 103, no zip) and an older local record
(source 4, with zip) for the same GeoNames id 617; the counties differ, so
they are not a close match. -/
def dupNewerLoc : AtlasLocation :=
  { city := "BOSTON", county := "SUFFOLK", state := "MA", country := "USA",
    latitude := 42, longitude := -71, zone := some "America/New_York",
    zip := "", rank := 1, placeType := "P.PPL", source := 103, geonameID := 617 }

/-- See `dupNewerLoc`. -/
def dupOlderLoc : AtlasLocation :=
  { city := "BOSTON", county := "", state := "MA", country := "USA",
    latitude := 42, longitude := -71, zone := some "America/New_York",
    zip := "02108", rank := 2, placeType := "P.PPL", source := 4, geonameID := 617 }

/-- The record produced for the survivor in `c1_geoname_dedup_witness`. -/
def dupSurvivorLoc : AtlasLocation :=
  { dupNewerLoc with rank := 2, zip := "02108", source := 4, useAsUpdate := true }

/-! ## Theorems -/

/-- **C7.** Counterexample: a request with `limit=0` parses to 0 and the code
(`Math.min(toInt(...), MAX_MATCH_LIMIT)`) applies no lower clamp, so the
effective limit is 0, below the claimed lower bound 1. -/
theorem c7_limit_counterexample :
    effectiveLimit (some 0) = 0 ∧ ¬ (1 ≤ effectiveLimit (some 0)) := by
  constructor <;> decide

/-- **C7 (amended).** The effective match limit is the requested limit capped
above at 500 (`min requested 500`), and 75 when no limit parameter is
supplied; no lower bound is enforced, so a request can drive the limit to 0
or below. -/
theorem c7_limit_amended :
    effectiveLimit none = DEFAULT_MATCH_LIMIT ∧
    (∀ n : Int, effectiveLimit (some n) = min n MAX_MATCH_LIMIT) ∧
    (∀ q : Option Int, effectiveLimit q ≤ MAX_MATCH_LIMIT) := by
  refine ⟨rfl, fun n => rfl, fun q => ?_⟩
  exact min_le_right _ _

/-- **C6.** Counterexample: with more results reported, after page 2 with 10
accumulated matches the code *continues* paging (10 < 2·12 keeps the loop
alive), while the claimed condition ("stop when the match count falls below
12·n") would stop; so the claim, as stated, does not match the code. -/
theorem c6_getty_paging_counterexample :
    gettyKeepPaging true 2 10 = true ∧ claimedKeepPaging true 2 10 = false := by
  constructor <;> decide

/-- **C6 (amended).** The Getty preliminary scrape stops requesting further
pages exactly when: the page did not report more results, or 6 pages have
been fetched, or at least 50 matches have been accumulated, or after page n
(n > 1) the accumulated match count has *reached at least* `12·n`. -/
theorem c6_getty_paging_amended (theresMore : Bool) (page matchCount : Nat) :
    gettyKeepPaging theresMore page matchCount = false ↔
      (theresMore = false ∨ 6 ≤ page ∨ 50 ≤ matchCount ∨
        (1 < page ∧ 12 * page ≤ matchCount)) := by
  cases theresMore
  · simp [gettyKeepPaging]
  · simp [gettyKeepPaging]
    omega

/-- **C6 (witness).** The amended stop condition at a concrete state: after
page 2 with 30 matches (30 ≥ 24) the loop stops even though more results
were reported. -/
theorem c6_getty_paging_witness : gettyKeepPaging true 2 30 = false :=
  (c6_getty_paging_amended true 2 30).mpr (Or.inr (Or.inr (Or.inr ⟨by decide, by decide⟩)))

/-- **C2.** Counterexample: in postal-code mode, when the postal-code query
returns more than one row and the query's city/state tokens also close-match
the row, the code *adds bonuses on top of* `ZIP_RANK`, producing rank 14;
so "rank ∈ [0,9]" and "postal matches have rank exactly 9" fail. -/
theorem c2_rank_counterexample :
    rowRank true 2 true true true true true true 0 1 = 14 ∧
    ¬ ((0 ≤ rowRank true 2 true true true true true true 0 1 ∧
        rowRank true 2 true true true true true true 0 1 ≤ 9) ∧
       rowRank true 2 true true true true true true 0 1 = 9) := by
  constructor <;> decide

/-- **C2 (amended).** Non-postal rows are clamped into `[0, 8]` after the
per-stage adjustment; postal rows get rank 9 plus up to 5 bonus points
(so rank ∈ [9, 14]), and exactly 9 whenever the postal query returned a
single row. -/
theorem c2_rank_amended (resultCount : Nat) (tc ts c1 c2 c3 c4 : Bool) (dbRank adj : Int) :
    (0 ≤ rowRank false resultCount tc ts c1 c2 c3 c4 dbRank adj ∧
     rowRank false resultCount tc ts c1 c2 c3 c4 dbRank adj ≤ 8) ∧
    (9 ≤ rowRank true resultCount tc ts c1 c2 c3 c4 dbRank adj ∧
     rowRank true resultCount tc ts c1 c2 c3 c4 dbRank adj ≤ 14) ∧
    rowRank true 1 tc ts c1 c2 c3 c4 dbRank adj = 9 := by
  refine ⟨?_, ?_, ?_⟩
  · simp only [rowRank, ZIP_RANK, Bool.false_eq_true, if_false, if_true]
    split_ifs <;> omega
  · simp only [rowRank, ZIP_RANK, if_true]
    split_ifs <;> omega
  · simp only [rowRank, ZIP_RANK, if_true]
    split_ifs <;> omega

/-- **C10.** `hasSearchBeenDoneRecently` never modifies the search-log table:
it calls `logSearchResults` with `matchCount = NO_RESULTS_YET = -1` and
`dbUpdate = false`, so the insert/update branch (guarded by
`matchCount >= 0 && dbUpdate`) is unreachable and the `atlas_searches2`
state is returned unchanged. -/
theorem c10_log_frame (row : Option SearchRow) (extended : Bool) :
    (hasSearchBeenDoneRecently row extended).2 = row := by
  cases row <;> simp [hasSearchBeenDoneRecently, logSearchResults, NO_RESULTS_YET]

/-- **C5.** Counterexample: with a fresh row already stored as extended,
`logSearchResults(s, false, 5)` keeps the sticky `extended` flag, so a later
`hasSearchBeenDoneRecently(s, true)` returns true even though
`ext' = true ≰ ext = false`; the claimed equivalence fails. -/
theorem c5_log_counterexample :
    ¬ searchLogClaim (some { extended := true, hits := 1, matchesCol := 0, ageMonths := 0 })
      false true 5 := by
  unfold searchLogClaim
  decide

/-- **C5 (amended).** After `logSearchResults(s, ext, n)` with database
updates enabled (`n ≥ 0`), the stored `extended` flag is the sticky
`ext OR previously-stored flag`, the row's age is 0 for a fresh insert and
unchanged otherwise, and a subsequent `hasSearchBeenDoneRecently(s, ext')`
returns true iff the stored row is less than 12 months old and `ext'`
implies that sticky stored flag. (The original claim's `ext' ≤ ext` only
matches when no previously-stored row was marked extended.) -/
theorem c5_log_amended (row : Option SearchRow) (ext extLater : Bool) (n : Int)
    (hn : 0 ≤ n) :
    ((hasSearchBeenDoneRecently (logSearchResults row ext n true).2 extLater).1 = true ↔
      (rowFreshB (logSearchResults row ext n true).2 = true ∧
        (extLater = true → storedExtended (logSearchResults row ext n true).2 = true))) ∧
    storedExtended (logSearchResults row ext n true).2 = (ext || storedExtended row) ∧
    rowFreshB (logSearchResults row ext n true).2 =
      (match row with
        | none => true
        | some r => decide (r.ageMonths < MAX_MONTHS_BEFORE_REDOING_EXTENDED_SEARCH)) := by
  cases row with
  | none =>
      simp [logSearchResults, hasSearchBeenDoneRecently, rowFreshB, storedExtended,
        NO_RESULTS_YET, MAX_MONTHS_BEFORE_REDOING_EXTENDED_SEARCH, hn]
      cases ext <;> cases extLater <;> simp
  | some r =>
      simp [logSearchResults, hasSearchBeenDoneRecently, rowFreshB, storedExtended,
        NO_RESULTS_YET, MAX_MONTHS_BEFORE_REDOING_EXTENDED_SEARCH, hn]
      cases ext <;> cases extLater <;> cases hr : r.extended <;> simp [hr]

/-- **C5 (witness).** The amended equivalence applied at a concrete state:
no stored row, `ext = true`, `n = 0`, `ext' = true`. -/
theorem c5_log_witness :
    ((hasSearchBeenDoneRecently (logSearchResults none true 0 true).2 true).1 = true ↔
      (rowFreshB (logSearchResults none true 0 true).2 = true ∧
        (true = true → storedExtended (logSearchResults none true 0 true).2 = true))) ∧
    storedExtended (logSearchResults none true 0 true).2 = (true || storedExtended none) ∧
    rowFreshB (logSearchResults none true 0 true).2 = true :=
  c5_log_amended none true true 0 (by decide)

/-- **C4.** For every search that completes (i.e. the truncation step does
not abort), the resulting `matches` list has at most `limit` elements, and
`limitReached` is set exactly when the list was truncated, in which case it
has exactly `limit` elements. -/
theorem c4_limit (l : List AtlasLocation) (limit : Int) (ms : List AtlasLocation)
    (limitReached : Bool)
    (h : applyMatchLimit l limit = some (ms, limitReached)) :
    (ms.length : Int) ≤ limit ∧ (limitReached = true → (ms.length : Int) = limit) := by
  unfold applyMatchLimit at h
  split at h
  · split at h
    · exact absurd h (by simp)
    · rename_i hgt hneg
      rw [Option.some.injEq, Prod.mk.injEq] at h
      obtain ⟨hms, hlr⟩ := h
      subst hms
      rw [List.length_take]
      constructor
      · push_cast
        omega
      · intro
        push_cast
        omega
  · rename_i hle
    rw [Option.some.injEq, Prod.mk.injEq] at h
    obtain ⟨hms, hlr⟩ := h
    subst hms
    subst hlr
    refine ⟨by omega, by simp⟩

/-- **C4 (witness).** A 2-element deduplicated list against limit 1:
truncated to exactly 1 element and `limitReached` set. -/
theorem c4_limit_witness :
    ((([dupNewerLoc] : List AtlasLocation).length : Int) ≤ 1 ∧
      (true = true → ((([dupNewerLoc] : List AtlasLocation).length : Int) = 1))) :=
  c4_limit [dupNewerLoc, dupOlderLoc] 1 [dupNewerLoc] true (by decide)

/-- The ASCII uppercase fold never yields a lowercase letter. -/
theorem asciiUpperCode_not_lower (c : Nat) :
    ¬ (97 ≤ asciiUpperCode c ∧ asciiUpperCode c ≤ 122) := by
  unfold asciiUpperCode
  split_ifs <;> omega

/-- The ASCII uppercase fold is idempotent. -/
theorem asciiUpperCode_idem (c : Nat) :
    asciiUpperCode (asciiUpperCode c) = asciiUpperCode c := by
  unfold asciiUpperCode
  split_ifs <;> omega

/-- After the final uppercase fold, the value of the `allUpper` flag inside
the character loop does not matter: it only decides whether a `ch2`
replacement is uppercased early, and the outer fold uppercases everything
anyway. -/
theorem makePlainASCIIChars_map_upper (b : Bool) : ∀ l : List Nat,
    (makePlainASCIIChars b l).map asciiUpperCode =
      (makePlainASCIIChars true l).map asciiUpperCode
  | [] => rfl
  | c :: cs => by
    rw [makePlainASCIIChars, makePlainASCIIChars, List.map_append, List.map_append,
      makePlainASCIIChars_map_upper b cs]
    congr 1
    unfold makePlainASCIIPush
    rcases hstep : makePlainASCIIStep c with ⟨ch2, chOut⟩
    cases ch2 with
    | none => rfl
    | some r =>
        cases b with
        | true => rfl
        | false =>
            show r.map asciiUpperCode = (r.map asciiUpperCode).map asciiUpperCode
            rw [List.map_map]
            exact List.map_congr_left (fun a _ => (asciiUpperCode_idem a).symm)

/-- `makePlainASCII(s).toUpperCase()` is the same whether the internal
`allUpper` flag is taken as computed by the source or fixed to `true`. -/
theorem makePlainASCII_UC_allUpper_irrelevant (b : Bool) (s : List Nat) :
    (makePlainASCII s b).map asciiUpperCode =
      (makePlainASCII s true).map asciiUpperCode := by
  unfold makePlainASCII
  split_ifs
  · rfl
  · rfl
  · exact makePlainASCIIChars_map_upper b s

/-- Characters produced by `makePlainASCII_UC` are never lowercase
letters. -/
theorem mem_makePlainASCII_UC_not_lower {c : Nat} {s : List Nat}
    (h : c ∈ makePlainASCII_UC s) : ¬ (97 ≤ c ∧ c ≤ 122) := by
  unfold makePlainASCII_UC at h
  split_ifs at h with he
  · rw [he] at h
    exact absurd h (List.not_mem_nil c)
  · obtain ⟨a, -, rfl⟩ := List.mem_map.mp h
    exact asciiUpperCode_not_lower a

/-- On input without lowercase letters, the character scan emits only spaces
and simplified-key characters. -/
theorem simplifyScan_charset : ∀ {s : List Nat},
    (∀ c ∈ s, ¬ (97 ≤ c ∧ c ≤ 122)) →
    ∀ c ∈ simplifyScan s, c = 32 ∨ isSimpleKeyCode c = true
  | [], _, c, hc => by simp [simplifyScan] at hc
  | a :: t, h, c, hc => by
    have ht : ∀ c ∈ t, ¬ (97 ≤ c ∧ c ≤ 122) := fun c hc => h c (List.mem_cons_of_mem a hc)
    unfold simplifyScan at hc
    split_ifs at hc with h1 h2
    · rcases List.mem_cons.mp hc with rfl | hc
      · exact Or.inl rfl
      · exact simplifyScan_charset ht c hc
    · rcases List.mem_cons.mp hc with rfl | hc
      · have := h c (List.mem_cons_self c t)
        simp only [isSimpleKeyCode, Bool.or_eq_true, decide_eq_true_eq,
          Bool.and_eq_true]
        omega
      · exact simplifyScan_charset ht c hc
    · exact simplifyScan_charset ht c hc

/-- A successful prefix test puts every prefix character in the string. -/
theorem beginsWithCodes_mem : ∀ {s p : List Nat}, beginsWithCodes s p = true →
    ∀ a ∈ p, a ∈ s
  | _, [], _, a, ha => by simp at ha
  | [], _ :: _, h, _, _ => by simp [beginsWithCodes] at h
  | c :: cs, q :: qs, h, a, ha => by
    rw [beginsWithCodes, Bool.and_eq_true, decide_eq_true_eq] at h
    rcases List.mem_cons.mp ha with rfl | ha
    · exact h.1 ▸ List.mem_cons_self c cs
    · exact List.mem_cons_of_mem c (beginsWithCodes_mem h.2 a ha)

/-- The FORT/MOUNT/POINT chain preserves the space-or-key-character
alphabet. -/
theorem compressFMP_charset {s : List Nat}
    (h : ∀ c ∈ s, c = 32 ∨ isSimpleKeyCode c = true) :
    ∀ c ∈ compressFMP s, c = 32 ∨ isSimpleKeyCode c = true := by
  unfold compressFMP
  split_ifs <;> intro c hc
  · rcases List.mem_append.mp hc with hc | hc
    · exact Or.inr ((by decide : ∀ x ∈ ([70, 84] : List Nat), isSimpleKeyCode x = true) c hc)
    · exact h c (List.mem_of_mem_drop hc)
  · rcases List.mem_append.mp hc with hc | hc
    · exact Or.inr ((by decide : ∀ x ∈ ([77, 84] : List Nat), isSimpleKeyCode x = true) c hc)
    · exact h c (List.mem_of_mem_drop hc)
  · rcases List.mem_append.mp hc with hc | hc
    · exact Or.inr ((by decide : ∀ x ∈ ([80, 84] : List Nat), isSimpleKeyCode x = true) c hc)
    · exact h c (List.mem_of_mem_drop hc)
  · exact h c hc

/-- The SAINT/SAINTE chain preserves the space-or-key-character alphabet. -/
theorem compressSaint_charset {s : List Nat}
    (h : ∀ c ∈ s, c = 32 ∨ isSimpleKeyCode c = true) :
    ∀ c ∈ compressSaint s, c = 32 ∨ isSimpleKeyCode c = true := by
  unfold compressSaint
  split_ifs <;> intro c hc
  · rcases List.mem_append.mp hc with hc | hc
    · exact Or.inr ((by decide : ∀ x ∈ ([83, 84] : List Nat), isSimpleKeyCode x = true) c hc)
    · exact h c (List.mem_of_mem_drop hc)
  · rcases List.mem_append.mp hc with hc | hc
    · exact Or.inr ((by decide : ∀ x ∈ ([83, 84, 69] : List Nat), isSimpleKeyCode x = true) c hc)
    · exact h c (List.mem_of_mem_drop hc)
  · exact h c hc

/-- Every character of a simplified string is a digit or an uppercase ASCII
letter. -/
theorem simplify_charset (s : List Nat) :
    ∀ c ∈ simplify s, isSimpleKeyCode c = true := by
  intro c hc
  unfold simplify at hc
  split_ifs at hc with he
  · subst he
    simp at hc
  · unfold squeezeTo40 compressAbbreviations at hc
    have hc2 := List.mem_filter.mp (List.mem_of_mem_take hc)
    have hks := compressSaint_charset
      (s := compressFMP (simplifyScan (makePlainASCII_UC (stripParenTail s))))
      (compressFMP_charset (simplifyScan_charset
        (fun c hc => mem_makePlainASCII_UC_not_lower hc)))
    rcases hks c hc2.1 with h32 | hkey
    · exact absurd h32 (by simpa using hc2.2)
    · exact hkey

/-- A simplified string has at most 40 characters. -/
theorem simplify_length_le (s : List Nat) : (simplify s).length ≤ 40 := by
  unfold simplify
  split_ifs with he
  · simp [he]
  · unfold squeezeTo40
    simp [List.length_take]

/-- `makePlainASCII_UC` leaves key-only strings unchanged: no character
needs work, and the uppercase fold fixes digits and uppercase letters. -/
theorem makePlainASCII_UC_key_fixed {y : List Nat}
    (hc : ∀ c ∈ y, isSimpleKeyCode c = true) : makePlainASCII_UC y = y := by
  by_cases he : y = []
  · rw [makePlainASCII_UC, if_pos he]
  · have hall : y.all (fun c => 32 ≤ c && c ≤ 126) = true :=
      List.all_eq_true.mpr (fun c hcy => by
        have := hc c hcy
        simp only [isSimpleKeyCode, Bool.or_eq_true, Bool.and_eq_true,
          decide_eq_true_eq] at this ⊢
        omega)
    rw [makePlainASCII_UC, if_neg he, makePlainASCII, if_neg he, if_pos hall]
    refine (List.map_congr_left (fun a ha => ?_)).trans (List.map_id y)
    have := hc a ha
    simp only [isSimpleKeyCode, Bool.or_eq_true, Bool.and_eq_true,
      decide_eq_true_eq] at this
    unfold asciiUpperCode
    rw [if_neg (by omega)]
    rfl

/-- The character scan leaves key-only strings unchanged. -/
theorem simplifyScan_key_fixed : ∀ {y : List Nat},
    (∀ c ∈ y, isSimpleKeyCode c = true) → simplifyScan y = y
  | [], _ => rfl
  | a :: t, h => by
    have ha := h a (List.mem_cons_self a t)
    simp only [isSimpleKeyCode, Bool.or_eq_true, Bool.and_eq_true, decide_eq_true_eq] at ha
    unfold simplifyScan
    rw [if_neg (by omega), if_pos (by omega),
      simplifyScan_key_fixed (fun c hc => h c (List.mem_cons_of_mem a hc))]

/-- The FORT/MOUNT/POINT chain leaves space-free strings unchanged. -/
theorem compressFMP_fixed {y : List Nat} (h32 : 32 ∉ y) : compressFMP y = y := by
  have hbw : ∀ p : List Nat, 32 ∈ p → ¬ (beginsWithCodes y p = true) :=
    fun p h32p hb => absurd (beginsWithCodes_mem hb 32 h32p) h32
  unfold compressFMP
  rw [if_neg (hbw _ (by decide)), if_neg (hbw _ (by decide)), if_neg (hbw _ (by decide))]

/-- The SAINT/SAINTE chain leaves space-free strings unchanged. -/
theorem compressSaint_fixed {y : List Nat} (h32 : 32 ∉ y) : compressSaint y = y := by
  have hbw : ∀ p : List Nat, 32 ∈ p → ¬ (beginsWithCodes y p = true) :=
    fun p h32p hb => absurd (beginsWithCodes_mem hb 32 h32p) h32
  unfold compressSaint
  rw [if_neg (hbw _ (by decide)), if_neg (hbw _ (by decide))]

/-- A string of at most 40 key characters is a fixed point of
`simplify`. -/
theorem simplify_key_fixed {y : List Nat}
    (hc : ∀ c ∈ y, isSimpleKeyCode c = true) (hl : y.length ≤ 40) :
    simplify y = y := by
  by_cases he : y = []
  · rw [simplify, if_pos he]
  · have h32 : 32 ∉ y := fun h => absurd (hc 32 h) (by decide)
    have h40 : 40 ∉ y := fun h => absurd (hc 40 h) (by decide)
    have hstrip : stripParenTail y = y := by rw [stripParenTail, if_neg h40]
    have hmap : makePlainASCII_UC y = y := makePlainASCII_UC_key_fixed hc
    have hscan : simplifyScan y = y := simplifyScan_key_fixed hc
    have hfilter : y.filter (fun c => c ≠ 32) = y :=
      List.filter_eq_self.mpr (fun a ha => by
        have := hc a ha
        simp only [isSimpleKeyCode, Bool.or_eq_true, Bool.and_eq_true,
          decide_eq_true_eq] at this
        simp only [ne_eq, decide_eq_true_eq]
        omega)
    rw [simplify, if_neg he, hstrip, hmap, hscan, compressAbbreviations,
      compressFMP_fixed h32, compressSaint_fixed h32, squeezeTo40, hfilter,
      List.take_of_length_le hl]

/-- **C8.** `simplify` is idempotent — `simplify (simplify x) = simplify x`
with default arguments — and its output is at most 40 characters long,
drawn from uppercase ASCII letters and digits. -/
theorem c8_simplify_idempotent (s : List Nat) :
    simplify (simplify s) = simplify s ∧
    (simplify s).length ≤ 40 ∧
    (∀ c ∈ simplify s, isSimpleKeyCode c = true) :=
  ⟨simplify_key_fixed (simplify_charset s) (simplify_length_le s),
    simplify_length_le s, simplify_charset s⟩

/-- **C8 (witness).** The theorem applied to the concrete input
`Mount Saint-Michel`: its simplification `MTSAINTMICHEL` (note the
hyphen-to-space fold, the `MOUNT` → `MT` compression, and the space
removal) is a fixed point, is within 40 characters, and its first
character `M` (77) is in the key alphabet. -/
theorem c8_simplify_witness :
    simplify (simplify [77, 111, 117, 110, 116, 32, 83, 97, 105, 110, 116, 45,
        77, 105, 99, 104, 101, 108]) =
      simplify [77, 111, 117, 110, 116, 32, 83, 97, 105, 110, 116, 45,
        77, 105, 99, 104, 101, 108] ∧
    (simplify [77, 111, 117, 110, 116, 32, 83, 97, 105, 110, 116, 45,
        77, 105, 99, 104, 101, 108]).length ≤ 40 ∧
    isSimpleKeyCode 77 = true :=
  have h := c8_simplify_idempotent [77, 111, 117, 110, 116, 32, 83, 97, 105,
    110, 116, 45, 77, 105, 99, 104, 101, 108]
  ⟨h.1, h.2.1, h.2.2 77 (by decide)⟩

/-- The pair step on `dupLocalLoc`/`dupRemoteLoc`: the *second* (higher
source) location survives with rank 3, source 4 and `useAsUpdate`, while
the zip write lands on the eliminated first location. -/
theorem geonamePairStep_dup_eval :
    geonamePairStep false dupLocalLoc dupRemoteLoc =
      some (false, dupLocalLoc,
        { dupRemoteLoc with rank := 3, source := 4, useAsUpdate := true }) := by
  decide

/-- **C1.** Counterexample: for the pair `dupLocalLoc` (source 4, zip
`03060`) and `dupRemoteLoc` (source 103, empty zip) with equal nonzero
geonameID, the code eliminates the *lower*-source location (the claimed
survivor), and the surviving location's zip stays empty even though a
non-empty zip was available; so the claim fails at this input. -/
theorem c1_geoname_dedup_counterexample :
    ¬ claimC1Stated false dupLocalLoc dupRemoteLoc := by
  intro h
  have h2 := h false dupLocalLoc
    { dupRemoteLoc with rank := 3, source := 4, useAsUpdate := true }
    geonamePairStep_dup_eval
  have hzip := h2.2.2.2.1 (Or.inl (by decide))
  exact hzip (by decide)

/-- Projections other than `zone` are unaffected by the conditional zone
copy. -/
theorem ite_zoneUpdate_zip (C : Prop) [Decidable C] (a : AtlasLocation) (z : Option String) :
    (if C then { a with zone := z } else a).zip = a.zip := by
  split <;> rfl

/-- **C1 (amended).** When two locations in a bucket share a nonzero
geonameID, exactly one survives: the one with the *higher* `source`
(the newer data; on a source tie, the second). The survivor's `source`
field is then set to the other location's source (so it ends up the `min`
of the two), its rank becomes the max of the two ranks; a non-empty zip is
carried onto the survivor only when the *first* location survives — when
the second survives, the zip write lands on the eliminated first location
and the survivor's zip is unchanged; and `useAsUpdate` is set iff the two
sources differ and the survivor is not a close match to the eliminated
location. -/
theorem c1_geoname_dedup_amended (closeDistance : Bool) (loc1 loc2 : AtlasLocation)
    (firstSurvives : Bool) (loc1After loc2After : AtlasLocation)
    (h : geonamePairStep closeDistance loc1 loc2 =
      some (firstSurvives, loc1After, loc2After)) :
    (firstSurvives = true ↔ loc2.source < loc1.source) ∧
    (if firstSurvives then loc1After else loc2After).rank = max loc1.rank loc2.rank ∧
    (if firstSurvives then loc1After else loc2After).source = min loc1.source loc2.source ∧
    (firstSurvives = true →
      loc1After.zip = (if loc1.zip ≠ "" then loc1.zip else loc2.zip)) ∧
    (firstSurvives = false →
      loc2After.zip = loc2.zip ∧
      loc1After.zip = (if loc2.zip ≠ "" then loc2.zip else loc1.zip)) ∧
    ((if firstSurvives then loc1After else loc2After).useAsUpdate = true ↔
      (loc1.source ≠ loc2.source ∧
        isCloseMatch (if firstSurvives then loc1After else loc2After)
          (if firstSurvives then loc2After else loc1After) = false)) := by
  simp only [geonamePairStep] at h
  split at h
  case isFalse => exact absurd h (by simp)
  case isTrue hid =>
  split at h
  case isTrue hsrc =>
    rw [Option.some.injEq, Prod.mk.injEq, Prod.mk.injEq] at h
    obtain ⟨rfl, rfl, rfl⟩ := h
    refine ⟨iff_of_true rfl hsrc, rfl, ?_, fun _ => rfl, fun hfs => absurd hfs (by simp), ?_⟩
    · show loc2.source = min loc1.source loc2.source
      omega
    · constructor
      · intro hu
        exact ⟨by omega, (Bool.not_eq_true' _).mp hu⟩
      · rintro ⟨-, hm⟩
        exact (Bool.not_eq_true' _).mpr hm
  case isFalse hsrc =>
    rw [Option.some.injEq, Prod.mk.injEq, Prod.mk.injEq] at h
    obtain ⟨rfl, rfl, rfl⟩ := h
    refine ⟨iff_of_false (by simp) (by omega), rfl, ?_, fun hfs => absurd hfs (by simp),
      fun _ => ⟨?_, rfl⟩, ?_⟩
    · show loc1.source = min loc1.source loc2.source
      omega
    · exact ite_zoneUpdate_zip _ loc2 _
    · constructor
      · intro hu
        obtain ⟨h1, h2⟩ := (Bool.and_eq_true _ _).mp hu
        exact ⟨by have := of_decide_eq_true h1; omega, (Bool.not_eq_true' _).mp h2⟩
      · rintro ⟨hne, hm⟩
        exact (Bool.and_eq_true _ _).mpr ⟨decide_eq_true (by omega), (Bool.not_eq_true' _).mpr hm⟩

/-- **C1 (witness).** The amended theorem applied to the concrete pair
`dupNewerLoc`/`dupOlderLoc` (first source higher, so the first survives):
the survivor's rank is the max and its source the min of the two. -/
theorem c1_geoname_dedup_witness :
    dupSurvivorLoc.rank = max dupNewerLoc.rank dupOlderLoc.rank ∧
    dupSurvivorLoc.source = min dupNewerLoc.source dupOlderLoc.source :=
  have h := c1_geoname_dedup_amended false dupNewerLoc dupOlderLoc true
    dupSurvivorLoc dupOlderLoc (by decide)
  ⟨h.2.1, h.2.2.1⟩

/-- The order induced by the `toPlainText` comparator, characterized:
`a` may precede `b` iff `b`'s rank is lower, or ranks are equal and `a`'s
display name is not the larger. -/
theorem rankNameLE_iff (a b : AtlasLocation) :
    rankNameLE a b ↔
      (b.rank < a.rank ∨ (a.rank = b.rank ∧ displayName a ≤ displayName b)) := by
  unfold rankNameLE matchComparator
  split_ifs with h1 h2 h3 h4
  · exact iff_of_false (by norm_num) (by rcases lt_trichotomy a.rank b.rank with h | h | h <;> 
      simp_all <;> omega)
  · exact ⟨fun _ => Or.inl h2, fun _ => by norm_num⟩
  · exact ⟨fun _ => Or.inr ⟨by omega, le_of_lt h3⟩, fun _ => by norm_num⟩
  · refine iff_of_false (by norm_num) ?_
    rintro (h | ⟨-, h⟩)
    · omega
    · exact absurd h (not_le.mpr h4)
  · exact iff_of_true le_rfl (Or.inr ⟨by omega, not_lt.mp h4⟩)

/-- The spec-modelled `compareTo` order coincides with the
`toPlainText` comparator order. -/
theorem compareToModel_le_iff (a b : AtlasLocation) :
    compareToModel a b ≤ 0 ↔ matchComparator a b ≤ 0 := by
  rw [show (matchComparator a b ≤ 0) = rankNameLE a b from rfl, rankNameLE_iff]
  unfold compareToModel
  split_ifs with h1 h2 h3 h4
  · exact iff_of_true (by norm_num) (Or.inl h1)
  · exact iff_of_false (by norm_num)
      (by rintro (h | ⟨h, -⟩) <;> omega)
  · exact iff_of_true (by norm_num) (Or.inr ⟨by omega, le_of_lt h3⟩)
  · refine iff_of_false (by norm_num) ?_
    rintro (h | ⟨-, h⟩)
    · omega
    · exact absurd h (not_le.mpr h4)
  · exact iff_of_true le_rfl (Or.inr ⟨by omega, not_lt.mp h4⟩)

instance : IsTotal AtlasLocation rankNameLE :=
  ⟨fun a b => by
    rw [rankNameLE_iff, rankNameLE_iff]
    rcases lt_trichotomy a.rank b.rank with h | h | h
    · exact Or.inr (Or.inl h)
    · rcases le_total (displayName a) (displayName b) with hn | hn
      · exact Or.inl (Or.inr ⟨h, hn⟩)
      · exact Or.inr (Or.inr ⟨h.symm, hn⟩)
    · exact Or.inl (Or.inl h)⟩

instance : IsTrans AtlasLocation rankNameLE :=
  ⟨fun a b c hab hbc => by
    rw [rankNameLE_iff] at hab hbc ⊢
    rcases hab with h1 | ⟨h1, hn1⟩ <;> rcases hbc with h2 | ⟨h2, hn2⟩
    · exact Or.inl (by omega)
    · exact Or.inl (by omega)
    · exact Or.inl (by omega)
    · exact Or.inr ⟨by omega, le_trans hn1 hn2⟩⟩

/-- **C3.** The match list produced by the sort is ordered: pairwise, ranks
are non-increasing, and whenever two entries have equal rank the earlier
one's display name is not the larger; moreover the spec-modelled
`compareTo` order used by `eliminateDuplicatesAndSort` coincides with the
`toPlainText` comparator order embedded from the source. -/
theorem c3_sorted_matches (l : List AtlasLocation) :
    List.Pairwise
      (fun a b => b.rank ≤ a.rank ∧ (a.rank = b.rank → displayName a ≤ displayName b))
      (sortMatches l) ∧
    (∀ a b, compareToModel a b ≤ 0 ↔ matchComparator a b ≤ 0) := by
  constructor
  · have hs := List.sorted_insertionSort rankNameLE l
    refine List.Pairwise.imp ?_ hs
    intro a b hab
    rw [rankNameLE_iff] at hab
    rcases hab with h | ⟨he, hn⟩
    · exact ⟨le_of_lt h, fun heq => absurd heq (by omega)⟩
    · exact ⟨le_of_eq he.symm, fun _ => hn⟩
  · exact compareToModel_le_iff

/-- **C3 (witness).** The sortedness property at a concrete two-element
list: after sorting, the higher-ranked `dupOlderLoc` (rank 2) precedes
`dupNewerLoc` (rank 1). -/
theorem c3_sorted_matches_witness :
    List.Pairwise
      (fun a b => b.rank ≤ a.rank ∧ (a.rank = b.rank → displayName a ≤ displayName b))
      (sortMatches [dupNewerLoc, dupOlderLoc]) :=
  (c3_sorted_matches [dupNewerLoc, dupOlderLoc]).1

/-- Adding a location to a bucket map keeps every location already
present. -/
theorem inBuckets_addToBucket_of {d : List (String × List AtlasLocation)}
    {loc : AtlasLocation} (k : String) (l' : AtlasLocation)
    (h : inBuckets d loc) : inBuckets (addToBucket d k l') loc := by
  induction d with
  | nil =>
      obtain ⟨k', locs', hmem, -⟩ := h
      exact absurd hmem (List.not_mem_nil _)
  | cons kv rest ih =>
      obtain ⟨k0, locs⟩ := kv
      obtain ⟨k', locs', hmem, hloc⟩ := h
      rw [addToBucket]
      split_ifs with hk
      · rcases List.mem_cons.mp hmem with heq | hmem
        · obtain ⟨rfl, rfl⟩ := Prod.mk.injEq .. ▸ heq
          exact ⟨k', locs' ++ [l'], List.mem_cons_self _ _,
            List.mem_append.mpr (Or.inl hloc)⟩
        · exact ⟨k', locs', List.mem_cons_of_mem _ hmem, hloc⟩
      · rcases List.mem_cons.mp hmem with heq | hmem
        · obtain ⟨rfl, rfl⟩ := Prod.mk.injEq .. ▸ heq
          exact ⟨k', locs', List.mem_cons_self _ _, hloc⟩
        · obtain ⟨k2, locs2, hmem2, hloc2⟩ := ih ⟨k', locs', hmem, hloc⟩
          exact ⟨k2, locs2, List.mem_cons_of_mem _ hmem2, hloc2⟩

/-- The location just added to a bucket map is present in it. -/
theorem inBuckets_addToBucket_self (d : List (String × List AtlasLocation))
    (k : String) (loc : AtlasLocation) : inBuckets (addToBucket d k loc) loc := by
  induction d with
  | nil => exact ⟨k, [loc], List.mem_singleton.mpr rfl, List.mem_singleton.mpr rfl⟩
  | cons kv rest ih =>
      obtain ⟨k0, locs⟩ := kv
      rw [addToBucket]
      split_ifs with hk
      · exact ⟨k0, locs ++ [loc], List.mem_cons_self _ _,
          List.mem_append.mpr (Or.inr (List.mem_singleton.mpr rfl))⟩
      · obtain ⟨k2, locs2, hmem2, hloc2⟩ := ih
        exact ⟨k2, locs2, List.mem_cons_of_mem _ hmem2, hloc2⟩

/-- Merging a source map into a bucket map keeps every location already
present. -/
theorem inBuckets_copyAndMerge_of (src : List (String × AtlasLocation)) :
    ∀ (d : List (String × List AtlasLocation)) (loc : AtlasLocation),
      inBuckets d loc → inBuckets (copyAndMergeLocations d src) loc := by
  induction src with
  | nil => exact fun d loc h => h
  | cons kv tl ih =>
      intro d loc h
      exact ih _ loc (inBuckets_addToBucket_of _ _ h)

/-- Every location of the source map lands in the merged bucket map. -/
theorem inBuckets_copyAndMerge_mem (src : List (String × AtlasLocation)) :
    ∀ (d : List (String × List AtlasLocation)) (k : String) (loc : AtlasLocation),
      (k, loc) ∈ src → inBuckets (copyAndMergeLocations d src) loc := by
  induction src with
  | nil => exact fun d k loc h => absurd h (List.not_mem_nil _)
  | cons kv tl ih =>
      intro d k loc h
      rcases List.mem_cons.mp h with heq | hmem
      · subst heq
        exact inBuckets_copyAndMerge_of tl _ loc (inBuckets_addToBucket_self _ _ _)
      · exact ih _ k loc hmem

/-- **C9.** When both remote adapters are consulted (no postal code) and
exactly one of them fails — rejecting with an error or timing out — the
orchestration still returns the successful adapter's location map, records
the failed adapter's message in its per-source error field, clears
`noErrors`, and the merged bucket map that feeds the final result contains
every location of the successful adapter and of the local search. Both
one-failure scenarios are covered. -/
theorem c9_one_adapter_failure (e : String)
    (geoMap gettyMap dbMap : List (String × AtlasLocation)) :
    ((remoteSourcesSearch true true "" (Except.error e) (Except.ok gettyMap)).geoNamesError
        = some e ∧
     (remoteSourcesSearch true true "" (Except.error e) (Except.ok gettyMap)).gettyMatches
        = some gettyMap ∧
     (remoteSourcesSearch true true "" (Except.error e) (Except.ok gettyMap)).noErrors
        = false ∧
     (remoteSourcesSearch true true "" (Except.error e) (Except.ok gettyMap)).matchTotal
        = gettyMap.length ∧
     (∀ k loc, (k, loc) ∈ gettyMap →
        inBuckets (mergeAllMatches (some dbMap)
          (some (remoteSourcesSearch true true "" (Except.error e) (Except.ok gettyMap)))) loc) ∧
     (∀ k loc, (k, loc) ∈ dbMap →
        inBuckets (mergeAllMatches (some dbMap)
          (some (remoteSourcesSearch true true "" (Except.error e) (Except.ok gettyMap)))) loc)) ∧
    ((remoteSourcesSearch true true "" (Except.ok geoMap) (Except.error e)).gettyError
        = some e ∧
     (remoteSourcesSearch true true "" (Except.ok geoMap) (Except.error e)).geoNamesMatches
        = some geoMap ∧
     (remoteSourcesSearch true true "" (Except.ok geoMap) (Except.error e)).noErrors
        = false ∧
     (remoteSourcesSearch true true "" (Except.ok geoMap) (Except.error e)).matchTotal
        = geoMap.length ∧
     (∀ k loc, (k, loc) ∈ geoMap →
        inBuckets (mergeAllMatches (some dbMap)
          (some (remoteSourcesSearch true true "" (Except.ok geoMap) (Except.error e)))) loc) ∧
     (∀ k loc, (k, loc) ∈ dbMap →
        inBuckets (mergeAllMatches (some dbMap)
          (some (remoteSourcesSearch true true "" (Except.ok geoMap) (Except.error e)))) loc)) := by
  constructor
  · refine ⟨rfl, rfl, rfl, by simp [remoteSourcesSearch], ?_, ?_⟩
    · intro k loc h
      simp only [mergeAllMatches, remoteSourcesSearch]
      exact inBuckets_copyAndMerge_mem gettyMap _ k loc h
    · intro k loc h
      simp only [mergeAllMatches, remoteSourcesSearch]
      exact inBuckets_copyAndMerge_of gettyMap _ loc
        (inBuckets_copyAndMerge_mem dbMap _ k loc h)
  · refine ⟨rfl, rfl, rfl, by simp [remoteSourcesSearch], ?_, ?_⟩
    · intro k loc h
      simp only [mergeAllMatches, remoteSourcesSearch]
      exact inBuckets_copyAndMerge_mem geoMap _ k loc h
    · intro k loc h
      simp only [mergeAllMatches, remoteSourcesSearch]
      exact inBuckets_copyAndMerge_of geoMap _ loc
        (inBuckets_copyAndMerge_mem dbMap _ k loc h)

/-- **C9 (witness).** The theorem at concrete singleton maps: with GeoNames
timing out and Getty returning one location, the per-source error is
recorded and the Getty location is in the merged map. -/
theorem c9_one_adapter_failure_witness :
    (remoteSourcesSearch true true "" (Except.error "GeoNames search timed out")
      (Except.ok [("boston,MA", dupOlderLoc)])).geoNamesError
        = some "GeoNames search timed out" ∧
    inBuckets (mergeAllMatches (some [("boston,MA", dupNewerLoc)])
      (some (remoteSourcesSearch true true "" (Except.error "GeoNames search timed out")
        (Except.ok [("boston,MA", dupOlderLoc)])))) dupOlderLoc :=
  have h := c9_one_adapter_failure "GeoNames search timed out"
    [] [("boston,MA", dupOlderLoc)] [("boston,MA", dupNewerLoc)]
  ⟨h.1.1, h.1.2.2.2.2.1 "boston,MA" dupOlderLoc (List.mem_singleton.mpr rfl)⟩
